import Mathlib

/-!
Shallow embedding of the real-time streaming subsystem of the EvoAgentX
processing server (`src/server/api.py` and `src/server/service.py`).

The embedding covers:
* `OutputCapture` with its `write_stdout` / `write_stderr` / `get_new_output`
  operations (`service.py`, lines 69-98);
* the tee wrappers `StreamingStdout` / `StreamingStderr` (`service.py`,
  lines 100-124);
* the two SSE polling loops `event_generator` (`api.py`, lines 190-226) and
  `client_event_generator` (`api.py`, lines 228-261), modelled as functions
  from a finite trace of per-tick environment snapshots (what the registry
  calls `get_stream_task` / `get_stream_task_updates` /
  `is_stream_task_completed` / `is_client_session_active` /
  `get_client_updates` return at that tick) to the list of emitted frames;
* the `GET /stream/{task_id}` subscribe guard (`api.py`, lines 263-274);
* the drain/append epilogue of `execute_workflow_for_project_stream` and its
  `monitor_output` task (`service.py`, lines 768-956).

Machine integers do not occur; Python's `timedelta.seconds` field (the
within-day seconds component of an elapsed interval) is modelled as
`elapsed % 86400` on whole elapsed seconds.
-/

namespace EvoServer

/-- Tag of a captured output entry: the first component of the tuples pushed
by `OutputCapture.write_stdout` / `write_stderr` (`service.py`, 77-87). -/
inductive OutSrc : Type where
  | stdout : OutSrc
  | stderr : OutSrc
deriving DecidableEq, Repr

/-- One element of `OutputCapture.combined_output`: the tuple
`(source, text, time.time())` appended by the write methods. -/
structure OutEntry : Type where
  src : OutSrc
  text : String
  time : Nat
deriving DecidableEq, Repr

/-- State of `OutputCapture` (`service.py`, 69-98): the two string buffers and
the combined ordered list of entries.  The `threading.Lock` makes each method
atomic; each Lean operation is one such atomic step. -/
structure OutputCapture : Type where
  stdout_buffer : String
  stderr_buffer : String
  combined_output : List OutEntry
deriving DecidableEq, Repr

/-- A freshly constructed `OutputCapture()`. -/
def OutputCapture.init : OutputCapture := ⟨"", "", []⟩

/-- `OutputCapture.write_stdout` (`service.py`, 77-81). -/
def OutputCapture.write_stdout (oc : OutputCapture) (text : String) (now : Nat) :
    OutputCapture :=
  ⟨oc.stdout_buffer ++ text, oc.stderr_buffer,
    oc.combined_output ++ [⟨OutSrc.stdout, text, now⟩]⟩

/-- `OutputCapture.write_stderr` (`service.py`, 83-87). -/
def OutputCapture.write_stderr (oc : OutputCapture) (text : String) (now : Nat) :
    OutputCapture :=
  ⟨oc.stdout_buffer, oc.stderr_buffer ++ text,
    oc.combined_output ++ [⟨OutSrc.stderr, text, now⟩]⟩

/-- `OutputCapture.get_new_output` (`service.py`, 89-93):
`self.combined_output[last_index:]`, a pure list slice that never waits. -/
def OutputCapture.get_new_output (oc : OutputCapture) (last_index : Nat) :
    List OutEntry :=
  oc.combined_output.drop last_index

/-- `OutputCapture.get_total_output` (`service.py`, 95-98). -/
def OutputCapture.get_total_output (oc : OutputCapture) : List OutEntry :=
  oc.combined_output

/-- Apply a sequence of writes (each entry carrying its source, text and
timestamp) to an `OutputCapture`, dispatching on the source exactly as a
caller would call `write_stdout` / `write_stderr`. -/
def OutputCapture.applyWrites (oc : OutputCapture) (ws : List OutEntry) :
    OutputCapture :=
  ws.foldl
    (fun o w =>
      match w.src with
      | OutSrc.stdout => o.write_stdout w.text w.time
      | OutSrc.stderr => o.write_stderr w.text w.time)
    oc

/-- Combined state visible while the capture wrappers are installed
(`execute_workflow_from_config_with_capture`, `service.py`, 432-441):
`sys.stdout` / `sys.stderr` are replaced by `StreamingStdout` /
`StreamingStderr`, which share one `OutputCapture` and keep references to the
original streams (modelled as the lists of strings those streams received). -/
structure CaptureInstall : Type where
  capture : OutputCapture
  original_stdout : List String
  original_stderr : List String
deriving DecidableEq, Repr

/-- `StreamingStdout.write` (`service.py`, 106-108): forward `text` to the
original stdout, then append it to the shared capture. -/
def streamingStdoutWrite (st : CaptureInstall) (text : String) (now : Nat) :
    CaptureInstall :=
  ⟨st.capture.write_stdout text now, st.original_stdout ++ [text],
    st.original_stderr⟩

/-- `StreamingStderr.write` (`service.py`, 119-121): forward `text` to the
original stderr, then append it to the shared capture. -/
def streamingStderrWrite (st : CaptureInstall) (text : String) (now : Nat) :
    CaptureInstall :=
  ⟨st.capture.write_stderr text now, st.original_stdout,
    st.original_stderr ++ [text]⟩

/-- Run a sequence of writes through the installed wrappers, each write going
to `StreamingStdout.write` or `StreamingStderr.write` according to its
source. -/
def CaptureInstall.applyWrites (st : CaptureInstall) (ws : List OutEntry) :
    CaptureInstall :=
  ws.foldl
    (fun s w =>
      match w.src with
      | OutSrc.stdout => streamingStdoutWrite s w.text w.time
      | OutSrc.stderr => streamingStderrWrite s w.text w.time)
    st

/-- The `data` field of an SSE frame: either `json.dumps(update)` for a log
entry of payload type `D`, or one of the fixed literal JSON objects built
inline by the generators (modelled by their message string). -/
inductive FrameData (D : Type) : Type where
  | payload : D → FrameData D
  | message : String → FrameData D
deriving DecidableEq, Repr

/-- One SSE frame as yielded by the generators in `api.py`:
`

{ "event": ..., "data": ... }

`. -/
structure Frame (D : Type) : Type where
  event : String
  data : FrameData D
deriving DecidableEq, Repr

/-- The payloads (log entries) carried by a frame list, in emission order;
frames carrying a fixed literal message (`error`, `session_closed`,
`session_timeout`) carry no log entry. -/
def framePayloads {D : Type} (fs : List (Frame D)) : List D :=
  fs.filterMap
    (fun f =>
      match f.data with
      | FrameData.payload d => some d
      | FrameData.message _ => none)

/-- Python `timedelta.seconds` on a whole-second interval: the within-day
component, discarding whole days (`api.py` lines 197 and 243 apply it to
`datetime.now() - start_time`). -/
def secondsComponent (elapsed : Nat) : Nat := elapsed % 86400

/-- Per-tick environment snapshot observed by one iteration of
`event_generator`'s `while True` loop: elapsed whole seconds since
`start_time`, the truthiness of `get_stream_task(task_id)`, the current
updates list of the task, and the value of
`is_stream_task_completed(task_id)` during this iteration. -/
structure EGTick (J : Type) : Type where
  elapsed : Nat
  found : Bool
  log : List J
  completed : Bool
deriving DecidableEq, Repr

/-- `event_generator` (`api.py`, 190-226) run over a finite trace of tick
snapshots, starting from cursor `lastIndex` (source: `last_index`).  Each
tick: if `(now - start).seconds > timeout`, yield one `error` frame with data
`{"error": "Stream timeout"}` and break; else if the task is not found, yield
one `error` frame with data `{"error": "Task not found"}` and break; else
yield one frame per entry of `updates[lastIndex:]`, tagged `update` when the
task is not completed and `complete` when it is, advancing the cursor by one
per frame; then break if the task is completed, else sleep and continue with
the next tick.  An exhausted trace means the reader is still polling. -/
def egRun {J : Type} (timeout : Nat) : List (EGTick J) → Nat → List (Frame J)
  | [], _ => []
  | t :: ts, lastIndex =>
    if timeout < secondsComponent t.elapsed then
      [⟨"error", FrameData.message "Stream timeout"⟩]
    else if t.found = false then
      [⟨"error", FrameData.message "Task not found"⟩]
    else
      let updates := t.log.drop lastIndex
      let frames := updates.map
        (fun u =>
          (⟨if t.completed then "complete" else "update",
            FrameData.payload u⟩ : Frame J))
      if t.completed then frames
      else frames ++ egRun timeout ts (lastIndex + updates.length)

/-- One entry of a client session's updates list, as consumed by
`client_event_generator` (`api.py`, 251-258): the generator reads
`update.get("event_type", "update")` for the frame's event name and sends the
whole update as the frame data. -/
structure CUpdate (J : Type) : Type where
  event_type : Option String
  payload : J
deriving DecidableEq, Repr

/-- The SSE event name chosen for a client update:
`update.get("event_type", "update")`. -/
def CUpdate.eventName {J : Type} (u : CUpdate J) : String :=
  u.event_type.getD "update"

/-- Per-tick environment snapshot observed by one iteration of
`client_event_generator`'s loop: the value of
`is_client_session_active(client_id)`, elapsed whole seconds since
`start_time`, and the session's current updates list. -/
structure CGTick (J : Type) : Type where
  active : Bool
  elapsed : Nat
  log : List (CUpdate J)
deriving DecidableEq, Repr

/-- `client_event_generator` (`api.py`, 228-261) run over a finite trace of
tick snapshots from cursor `lastIndex`.  Each tick: if the session is not
active, yield one `session_closed` frame and break; else if
`(now - start).seconds > timeout`, yield one `session_timeout` frame and
break; else yield one frame per entry of `updates[lastIndex:]` (event name
`update.get("event_type", "update")`), advance the cursor, sleep, and
continue.  The loop has no other exit. -/
def cgRun {J : Type} (timeout : Nat) :
    List (CGTick J) → Nat → List (Frame (CUpdate J))
  | [], _ => []
  | t :: ts, lastIndex =>
    if t.active = false then
      [⟨"session_closed", FrameData.message "Client session closed"⟩]
    else if timeout < secondsComponent t.elapsed then
      [⟨"session_timeout", FrameData.message "Session timed out"⟩]
    else
      let updates := t.log.drop lastIndex
      updates.map
          (fun u => (⟨u.eventName, FrameData.payload u⟩ : Frame (CUpdate J)))
        ++ cgRun timeout ts (lastIndex + updates.length)

/-- Modelled from the spec: the task registry maintained by
`server/task_manager.py`, which is not under `src/`; per spec section 4.2 it
is a mapping from job id to a record holding the job's config, and
`get(id)` yields the record or "not found".  Only the config's `timeout`
field is consumed by the subscribe endpoint. -/
structure StreamTaskRec : Type where
  timeout : Nat
deriving DecidableEq, Repr

/-- Result of the `GET /stream/{task_id}` endpoint: an HTTP error status, or
an opened SSE response whose generator was given the recorded timeout. -/
inductive SubscribeResult : Type where
  | httpError : Nat → SubscribeResult
  | sse : Nat → SubscribeResult
deriving DecidableEq, Repr

/-- `stream_results` (`api.py`, 263-274): raise `HTTPException(404)` when
`get_stream_task(task_id)` is falsy, otherwise answer with
`EventSourceResponse(event_generator(task_id, config["timeout"]))`. -/
def stream_results (get_stream_task : String → Option StreamTaskRec)
    (task_id : String) : SubscribeResult :=
  match get_stream_task task_id with
  | none => SubscribeResult.httpError 404
  | some r => SubscribeResult.sse r.timeout

/-! ### List helper lemmas about cursor slices -/

theorem take_drop_glue {α : Type} (T : List α) :
    ∀ (a b : Nat), a ≤ b → (T.take b).drop a ++ T.drop b = T.drop a := by
  induction T with
  | nil => intro a b _; simp
  | cons x T ih =>
    intro a b h
    cases a with
    | zero => simp
    | succ a =>
      cases b with
      | zero => omega
      | succ b => simpa using ih a b (by omega)

theorem chunk_as_cursor_slice {α : Type} (L : List α) (c n : Nat) :
    (L.take n).drop c = (L.take (c + ((L.take n).drop c).length)).drop c := by
  by_cases hc : (L.take n).length ≤ c
  · rw [List.drop_eq_nil_of_le hc]
    simp only [List.length_nil, Nat.add_zero]
    symm
    exact List.drop_eq_nil_of_le
      (by rw [List.length_take]; exact Nat.min_le_left c L.length)
  · push_neg at hc
    have hlen : ((L.take n).drop c).length = (L.take n).length - c :=
      List.length_drop c (L.take n)
    have hmin : (L.take n).length = min n L.length := List.length_take n L
    have hsum : c + ((L.take n).drop c).length = min n L.length := by omega
    rw [hsum]
    have h1 : (L.take L.length).take n = L.take (min n L.length) :=
      List.take_take n L.length L
    rw [List.take_length] at h1
    rw [← h1]

theorem cursor_slice_glue {α : Type} (L : List α) (a b c : Nat)
    (hab : a ≤ b) (hbc : b ≤ c) :
    (L.take b).drop a ++ (L.take c).drop b = (L.take c).drop a := by
  by_cases hb : b ≤ L.length
  · have h1 : (L.take c).take b = L.take b := by
      rw [List.take_take, Nat.min_eq_left hbc]
    rw [← h1]
    exact take_drop_glue (L.take c) a b hab
  · push_neg at hb
    have h1 : L.take b = L := List.take_of_length_le (by omega)
    have h2 : L.take c = L := List.take_of_length_le (by omega)
    have h3 : L.drop b = [] := List.drop_eq_nil_of_le (by omega)
    rw [h1, h2, h3, List.append_nil]

theorem cursor_slice_close {α : Type} (L : List α) (k c : Nat) (h : k ≤ c) :
    (L.take c).drop k ++ L.drop c = L.drop k := by
  by_cases hc : c ≤ L.length
  · have := cursor_slice_glue L k c L.length h hc
    rwa [List.take_length] at this
  · push_neg at hc
    have h1 : L.take c = L := List.take_of_length_le (by omega)
    have h2 : L.drop c = [] := List.drop_eq_nil_of_le (by omega)
    rw [h1, h2, List.append_nil]

theorem framePayloads_append {D : Type} (l1 l2 : List (Frame D)) :
    framePayloads (l1 ++ l2) = framePayloads l1 ++ framePayloads l2 :=
  List.filterMap_append l1 l2 _

theorem framePayloads_tagged {D : Type} (tag : D → String) (l : List D) :
    framePayloads
        (l.map (fun u => (⟨tag u, FrameData.payload u⟩ : Frame D))) = l := by
  induction l with
  | nil => rfl
  | cons x l ih => simpa [framePayloads] using ih

/-! ### Lemmas about the output-capture buffer -/

theorem applyWrites_combined (ws : List OutEntry) :
    ∀ oc : OutputCapture,
      (oc.applyWrites ws).combined_output = oc.combined_output ++ ws := by
  induction ws with
  | nil => intro oc; simp [OutputCapture.applyWrites]
  | cons w ws ih =>
    intro oc
    obtain ⟨src, text, time⟩ := w
    cases src
    · show (OutputCapture.applyWrites (oc.write_stdout text time) ws).combined_output = _
      rw [ih]
      simp [OutputCapture.write_stdout]
    · show (OutputCapture.applyWrites (oc.write_stderr text time) ws).combined_output = _
      rw [ih]
      simp [OutputCapture.write_stderr]

/-- The strings sent to stdout among a write sequence, in order. -/
def stdoutTexts (ws : List OutEntry) : List String :=
  ws.filterMap
    (fun w =>
      match w.src with
      | OutSrc.stdout => some w.text
      | OutSrc.stderr => none)

/-- The strings sent to stderr among a write sequence, in order. -/
def stderrTexts (ws : List OutEntry) : List String :=
  ws.filterMap
    (fun w =>
      match w.src with
      | OutSrc.stdout => none
      | OutSrc.stderr => some w.text)

/-! ### Unfolding lemmas for the two polling loops -/

theorem egRun_cons {J : Type} (timeout k : Nat) (t : EGTick J)
    (ts : List (EGTick J)) :
    egRun timeout (t :: ts) k =
      if timeout < secondsComponent t.elapsed then
        [⟨"error", FrameData.message "Stream timeout"⟩]
      else if t.found = false then
        [⟨"error", FrameData.message "Task not found"⟩]
      else if t.completed then
        (t.log.drop k).map
          (fun u => (⟨"complete", FrameData.payload u⟩ : Frame J))
      else
        (t.log.drop k).map
            (fun u => (⟨"update", FrameData.payload u⟩ : Frame J))
          ++ egRun timeout ts (k + (t.log.drop k).length) := by
  by_cases h1 : timeout < secondsComponent t.elapsed
  · simp [egRun, h1]
  · by_cases h2 : t.found = false
    · simp [egRun, h1, h2]
    · cases h3 : t.completed <;> simp [egRun, h1, h2, h3]

theorem cgRun_cons {J : Type} (timeout k : Nat) (t : CGTick J)
    (ts : List (CGTick J)) :
    cgRun timeout (t :: ts) k =
      if t.active = false then
        [⟨"session_closed", FrameData.message "Client session closed"⟩]
      else if timeout < secondsComponent t.elapsed then
        [⟨"session_timeout", FrameData.message "Session timed out"⟩]
      else
        (t.log.drop k).map
            (fun u => (⟨u.eventName, FrameData.payload u⟩ : Frame (CUpdate J)))
          ++ cgRun timeout ts (k + (t.log.drop k).length) := by
  by_cases h1 : t.active = false
  · simp [cgRun, h1]
  · by_cases h2 : timeout < secondsComponent t.elapsed <;> simp [cgRun, h1, h2]

theorem chunk_glue {α : Type} (L : List α) (c c2 n m : Nat)
    (hm : m = c + ((L.take n).drop c).length) (h2 : m ≤ c2) :
    (L.take n).drop c ++ (L.take c2).drop m = (L.take c2).drop c := by
  have h1 : (L.take n).drop c = (L.take m).drop c := by
    rw [hm]; exact chunk_as_cursor_slice L c n
  rw [h1]
  exact cursor_slice_glue L c m c2 (by omega) h2

/-- Invariant of the `event_generator` polling loop over a run of
non-terminal ticks: every tick sees the task, sees no timeout, sees the task
uncompleted, and sees some already-appended prefix of the eventual log `L`.
The loop then emits exactly the `update`-tagged slice of `L` it walked over,
and hands a well-formed cursor to whatever trace follows. -/
theorem egRun_body {J : Type} (timeout : Nat) (L : List J) :
    ∀ (ts : List (EGTick J)) (c : Nat),
      (∀ t ∈ ts, t.found = true ∧ secondsComponent t.elapsed ≤ timeout ∧
        t.completed = false ∧ ∃ n, t.log = L.take n) →
      ∃ c2, c ≤ c2 ∧ (c ≤ L.length → c2 ≤ L.length) ∧
        (∀ t ∈ ts, t.log.length ≤ c2) ∧
        ∀ rest, egRun timeout (ts ++ rest) c
          = ((L.take c2).drop c).map
              (fun u => (⟨"update", FrameData.payload u⟩ : Frame J))
            ++ egRun timeout rest c2 := by
  intro ts
  induction ts with
  | nil =>
    intro c _
    refine ⟨c, Nat.le_refl c, fun h => h, by simp, ?_⟩
    intro rest
    have h0 : (L.take c).drop c = [] :=
      List.drop_eq_nil_of_le
        (by rw [List.length_take]; exact Nat.min_le_left c L.length)
    simp [h0]
  | cons t ts ih =>
    intro c hts
    obtain ⟨hf, hto, hcmp, n, hlog⟩ := hts t (by simp)
    have hts' : ∀ t' ∈ ts, t'.found = true ∧
        secondsComponent t'.elapsed ≤ timeout ∧ t'.completed = false ∧
        ∃ n, t'.log = L.take n :=
      fun t' ht' => hts t' (by simp [ht'])
    obtain ⟨c2, hc2a, hc2b, hc2c, hrun⟩ := ih (c + (t.log.drop c).length) hts'
    have hlen : (t.log.drop c).length = min n L.length - c := by
      rw [hlog, List.length_drop, List.length_take]
    have hminL : min n L.length ≤ L.length := Nat.min_le_right n L.length
    refine ⟨c2, by omega, ?_, ?_, ?_⟩
    · intro hcL
      exact hc2b (by omega)
    · intro t' ht'
      rcases List.mem_cons.mp ht' with h | h
      · subst h
        have : t'.log.length = min n L.length := by
          rw [hlog, List.length_take]
        omega
      · exact hc2c t' h
    · intro rest
      rw [List.cons_append, egRun_cons]
      rw [if_neg (by omega : ¬ timeout < secondsComponent t.elapsed)]
      rw [if_neg (by simp [hf] : ¬ t.found = false)]
      rw [if_neg (by simp [hcmp] : ¬ t.completed = true)]
      rw [hrun rest, ← List.append_assoc, ← List.map_append]
      rw [hlog] at hc2a ⊢
      rw [chunk_glue L c c2 n (c + ((L.take n).drop c).length) rfl hc2a]

/-- Invariant of the `client_event_generator` polling loop over a run of
active, non-timed-out ticks, each seeing some already-appended prefix of the
eventual session log `L`. -/
theorem cgRun_body {J : Type} (timeout : Nat) (L : List (CUpdate J)) :
    ∀ (ts : List (CGTick J)) (c : Nat),
      (∀ t ∈ ts, t.active = true ∧ secondsComponent t.elapsed ≤ timeout ∧
        ∃ n, t.log = L.take n) →
      ∃ c2, c ≤ c2 ∧ (c ≤ L.length → c2 ≤ L.length) ∧
        (∀ t ∈ ts, t.log.length ≤ c2) ∧
        ∀ rest, cgRun timeout (ts ++ rest) c
          = ((L.take c2).drop c).map
              (fun u =>
                (⟨u.eventName, FrameData.payload u⟩ : Frame (CUpdate J)))
            ++ cgRun timeout rest c2 := by
  intro ts
  induction ts with
  | nil =>
    intro c _
    refine ⟨c, Nat.le_refl c, fun h => h, by simp, ?_⟩
    intro rest
    have h0 : (L.take c).drop c = [] :=
      List.drop_eq_nil_of_le
        (by rw [List.length_take]; exact Nat.min_le_left c L.length)
    simp [h0]
  | cons t ts ih =>
    intro c hts
    obtain ⟨ha, hto, n, hlog⟩ := hts t (by simp)
    have hts' : ∀ t' ∈ ts, t'.active = true ∧
        secondsComponent t'.elapsed ≤ timeout ∧ ∃ n, t'.log = L.take n :=
      fun t' ht' => hts t' (by simp [ht'])
    obtain ⟨c2, hc2a, hc2b, hc2c, hrun⟩ := ih (c + (t.log.drop c).length) hts'
    have hlen : (t.log.drop c).length = min n L.length - c := by
      rw [hlog, List.length_drop, List.length_take]
    have hminL : min n L.length ≤ L.length := Nat.min_le_right n L.length
    refine ⟨c2, by omega, ?_, ?_, ?_⟩
    · intro hcL
      exact hc2b (by omega)
    · intro t' ht'
      rcases List.mem_cons.mp ht' with h | h
      · subst h
        have : t'.log.length = min n L.length := by
          rw [hlog, List.length_take]
        omega
      · exact hc2c t' h
    · intro rest
      rw [List.cons_append, cgRun_cons]
      rw [if_neg (by simp [ha] : ¬ t.active = false)]
      rw [if_neg (by omega : ¬ timeout < secondsComponent t.elapsed)]
      rw [hrun rest, ← List.append_assoc, ← List.map_append]
      rw [hlog] at hc2a ⊢
      rw [chunk_glue L c c2 n (c + ((L.take n).drop c).length) rfl hc2a]

/-! ### Claim theorems -/

/-- C8 (confirmed): for every sequence of appends to one `OutputCapture`,
`get_new_output 0` returns every appended entry, in append order, occupying
list positions `0..n-1` with no gaps; and `get_new_output` at any index at
or past the end returns `[]` — it is a pure slice that never waits. -/
theorem c8_log_slice (ws : List OutEntry) :
    (OutputCapture.init.applyWrites ws).get_new_output 0 = ws ∧
    ∀ (oc : OutputCapture) (i : Nat), oc.combined_output.length ≤ i →
      oc.get_new_output i = [] := by
  constructor
  · show ((OutputCapture.init.applyWrites ws).combined_output).drop 0 = ws
    rw [applyWrites_combined ws OutputCapture.init]
    simp [OutputCapture.init]
  · intro oc i h
    exact List.drop_eq_nil_of_le h

/-- Witness for `c8_log_slice` at a two-entry write sequence and a saturated
read index. -/
theorem c8_log_slice_witness :
    (OutputCapture.init.applyWrites
        [⟨OutSrc.stdout, "a", 0⟩, ⟨OutSrc.stderr, "b", 1⟩]).get_new_output 0
      = [⟨OutSrc.stdout, "a", 0⟩, ⟨OutSrc.stderr, "b", 1⟩] ∧
    (⟨"a", "", [⟨OutSrc.stdout, "a", 0⟩]⟩ : OutputCapture).combined_output.length ≤ 1 ∧
    (⟨"a", "", [⟨OutSrc.stdout, "a", 0⟩]⟩ : OutputCapture).get_new_output 1 = [] :=
  ⟨(c8_log_slice _).1, by decide, (c8_log_slice []).2 _ 1 (by decide)⟩

/-- C9 (confirmed): while the capture wrappers are installed, every string
written to stdout or stderr is both forwarded unchanged to the original
stream and appended as an entry to the shared capture buffer: the wrappers
tee and never suppress console output. -/
theorem c9_tee_capture (st : CaptureInstall) (ws : List OutEntry) :
    (st.applyWrites ws).original_stdout = st.original_stdout ++ stdoutTexts ws ∧
    (st.applyWrites ws).original_stderr = st.original_stderr ++ stderrTexts ws ∧
    (st.applyWrites ws).capture.combined_output
      = st.capture.combined_output ++ ws := by
  induction ws generalizing st with
  | nil => simp [CaptureInstall.applyWrites, stdoutTexts, stderrTexts]
  | cons w ws ih =>
    obtain ⟨src, text, time⟩ := w
    cases src
    · have hstep : CaptureInstall.applyWrites st (⟨OutSrc.stdout, text, time⟩ :: ws)
          = CaptureInstall.applyWrites (streamingStdoutWrite st text time) ws := rfl
      rw [hstep]
      obtain ⟨h1, h2, h3⟩ := ih (streamingStdoutWrite st text time)
      refine ⟨?_, ?_, ?_⟩
      · rw [h1]; simp [streamingStdoutWrite, stdoutTexts]
      · rw [h2]; simp [streamingStdoutWrite, stderrTexts]
      · rw [h3]; simp [streamingStdoutWrite, OutputCapture.write_stdout]
    · have hstep : CaptureInstall.applyWrites st (⟨OutSrc.stderr, text, time⟩ :: ws)
          = CaptureInstall.applyWrites (streamingStderrWrite st text time) ws := rfl
      rw [hstep]
      obtain ⟨h1, h2, h3⟩ := ih (streamingStderrWrite st text time)
      refine ⟨?_, ?_, ?_⟩
      · rw [h1]; simp [streamingStderrWrite, stdoutTexts]
      · rw [h2]; simp [streamingStderrWrite, stderrTexts]
      · rw [h3]; simp [streamingStderrWrite, OutputCapture.write_stderr]

/-- C10 (confirmed): both stream readers compare only the within-day seconds
component of the elapsed interval (`timedelta.seconds` discards whole days),
so on a tick whose true elapsed time exceeds the timeout by exactly 24 hours
the check does not fire: no timeout frame is emitted and both readers keep
polling (drain the tick's slice and continue with the next tick). -/
theorem c10_seconds_component {J : Type} (timeout k k2 : Nat)
    (h86 : timeout < 86400)
    (t : EGTick J) (ts : List (EGTick J))
    (ht : t.elapsed = timeout + 86400) (hf : t.found = true)
    (hc : t.completed = false)
    (c : CGTick J) (cs : List (CGTick J))
    (ha : c.active = true) (he : c.elapsed = timeout + 86400) :
    timeout < t.elapsed ∧
    egRun timeout (t :: ts) k
      = (t.log.drop k).map
          (fun u => (⟨"update", FrameData.payload u⟩ : Frame J))
        ++ egRun timeout ts (k + (t.log.drop k).length) ∧
    cgRun timeout (c :: cs) k2
      = (c.log.drop k2).map
          (fun u => (⟨u.eventName, FrameData.payload u⟩ : Frame (CUpdate J)))
        ++ cgRun timeout cs (k2 + (c.log.drop k2).length) := by
  have hsc : secondsComponent t.elapsed = timeout := by
    rw [ht, secondsComponent, Nat.add_mod_right]
    exact Nat.mod_eq_of_lt h86
  have hsc2 : secondsComponent c.elapsed = timeout := by
    rw [he, secondsComponent, Nat.add_mod_right]
    exact Nat.mod_eq_of_lt h86
  refine ⟨by omega, ?_, ?_⟩
  · rw [egRun_cons, if_neg (by omega), if_neg (by simp [hf]),
      if_neg (by simp [hc])]
  · rw [cgRun_cons, if_neg (by simp [ha]), if_neg (by omega)]

/-- Witness for `c10_seconds_component` with timeout 30 and elapsed
30 + 86400 seconds. -/
theorem c10_seconds_component_witness :
    (30 : Nat) < 86400 ∧
    (⟨86430, true, ([] : List Nat), false⟩ : EGTick Nat).elapsed = 30 + 86400 ∧
    (⟨86430, true, ([] : List Nat), false⟩ : EGTick Nat).found = true ∧
    (⟨86430, true, ([] : List Nat), false⟩ : EGTick Nat).completed = false ∧
    (⟨true, 86430, ([] : List (CUpdate Nat))⟩ : CGTick Nat).active = true ∧
    (⟨true, 86430, ([] : List (CUpdate Nat))⟩ : CGTick Nat).elapsed = 30 + 86400 ∧
    ((30 : Nat) < 86430 ∧
      egRun 30 [(⟨86430, true, ([] : List Nat), false⟩ : EGTick Nat)] 0
        = [] ++ egRun 30 ([] : List (EGTick Nat)) (0 + 0) ∧
      cgRun 30 [(⟨true, 86430, ([] : List (CUpdate Nat))⟩ : CGTick Nat)] 0
        = [] ++ cgRun 30 ([] : List (CGTick Nat)) (0 + 0)) :=
  ⟨by decide, rfl, rfl, rfl, rfl, rfl,
    c10_seconds_component 30 0 0 (by decide)
      ⟨86430, true, [], false⟩ [] rfl rfl rfl ⟨true, 86430, []⟩ [] rfl rfl⟩

/-- C4 (confirmed): a reader attached to a job id whose registry lookup is
falsy emits exactly one `error` frame on its first tick and closes, never
reaching the sleep or reading any log (the result is the same for every log
content and every continuation trace); and the `GET /stream/{task_id}`
endpoint rejects an unknown job id with HTTP 404 before opening a stream.
The task registry itself lives in `task_manager.py` (not under `src/`) and
is modelled from the spec as an id-to-record lookup. -/
theorem c4_unknown_job {J : Type} (timeout k : Nat) (L : List J) (cmp : Bool)
    (rest : List (EGTick J))
    (reg : String → Option StreamTaskRec) (job : String)
    (hreg : reg job = none) :
    egRun timeout (⟨0, false, L, cmp⟩ :: rest) k
      = [⟨"error", FrameData.message "Task not found"⟩] ∧
    stream_results reg job = SubscribeResult.httpError 404 := by
  constructor
  · rw [egRun_cons, if_neg (by simp [secondsComponent]), if_pos rfl]
  · simp [stream_results, hreg]

/-- Witness for `c4_unknown_job` on job id `J404` and an empty registry. -/
theorem c4_unknown_job_witness :
    ((fun _ : String => (none : Option StreamTaskRec)) "J404" = none) ∧
    egRun 30 [(⟨0, false, [7], false⟩ : EGTick Nat)] 0
      = [⟨"error", FrameData.message "Task not found"⟩] ∧
    stream_results (fun _ => none) "J404" = SubscribeResult.httpError 404 :=
  ⟨rfl, (c4_unknown_job 30 0 [7] false [] (fun _ => none) "J404" rfl).1,
    (c4_unknown_job 30 0 [7] false [] (fun _ => none) "J404" rfl).2⟩

/-- C3 counterexample: on the tick where the job-stream reader's timeout
check fires, the frame it emits is tagged `error` (with data
`{"error": "Stream timeout"}`), not a dedicated timeout kind distinct from
`error` — refuting the claim for the job stream at a concrete input. -/
theorem c3_claim_counterexample :
    egRun 30 [(⟨0, true, [], false⟩ : EGTick Nat), ⟨31, true, [], false⟩] 0
      = [⟨"error", FrameData.message "Stream timeout"⟩] ∧
    ∀ f ∈ egRun 30
        [(⟨0, true, [], false⟩ : EGTick Nat), ⟨31, true, [], false⟩] 0,
      f.event = "error" :=
  ⟨by decide, by decide⟩

/-- C3 (corrected): when a reader's elapsed-time check fires, it emits one
final frame and closes, emitting nothing afterwards (any continuation trace
is ignored); the client-session reader's final frame is the dedicated
`session_timeout` kind, but the job-stream reader's final frame is tagged
`error` with payload "Stream timeout", not a dedicated timeout kind. -/
theorem c3_timeout_close {J : Type} (timeout k k2 : Nat)
    (t : EGTick J) (rest : List (EGTick J))
    (c : CGTick J) (rest2 : List (CGTick J))
    (hfire : timeout < secondsComponent t.elapsed)
    (hact : c.active = true)
    (hfire2 : timeout < secondsComponent c.elapsed) :
    egRun timeout (t :: rest) k
      = [⟨"error", FrameData.message "Stream timeout"⟩] ∧
    cgRun timeout (c :: rest2) k2
      = [⟨"session_timeout", FrameData.message "Session timed out"⟩] := by
  constructor
  · rw [egRun_cons, if_pos hfire]
  · rw [cgRun_cons, if_neg (by simp [hact]), if_pos hfire2]

/-- Witness for `c3_timeout_close` at elapsed 31 seconds against timeout
30, with nonempty continuation traces that are provably ignored. -/
theorem c3_timeout_close_witness :
    (30 : Nat) < secondsComponent
      (⟨31, true, [5], false⟩ : EGTick Nat).elapsed ∧
    (⟨true, 31, []⟩ : CGTick Nat).active = true ∧
    (30 : Nat) < secondsComponent (⟨true, 31, []⟩ : CGTick Nat).elapsed ∧
    egRun 30 [(⟨31, true, [5], false⟩ : EGTick Nat), ⟨32, true, [5], false⟩] 0
      = [⟨"error", FrameData.message "Stream timeout"⟩] ∧
    cgRun 30 [(⟨true, 31, []⟩ : CGTick Nat), ⟨true, 32, []⟩] 0
      = [⟨"session_timeout", FrameData.message "Session timed out"⟩] :=
  ⟨by decide, rfl, by decide,
    (c3_timeout_close 30 0 0 ⟨31, true, [5], false⟩ [⟨32, true, [5], false⟩]
      ⟨true, 31, []⟩ [⟨true, 32, []⟩] (by decide) rfl (by decide)).1,
    (c3_timeout_close 30 0 0 ⟨31, true, [5], false⟩ [⟨32, true, [5], false⟩]
      ⟨true, 31, []⟩ [⟨true, 32, []⟩] (by decide) rfl (by decide)).2⟩

/-- C2 counterexample: a reader that starts at cursor 0 only after the job
has completed finds the task already completed on its first tick and tags
every drained frame `complete` — including the two progress updates, which
the claim requires to be tagged `update`.  The claim's "regardless of when
the reader starts relative to the job's completion" is therefore false. -/
theorem c2_claim_counterexample :
    egRun 30 [(⟨1, true, [1, 2, 3], true⟩ : EGTick Nat)] 0
      = [⟨"complete", FrameData.payload 1⟩, ⟨"complete", FrameData.payload 2⟩,
         ⟨"complete", FrameData.payload 3⟩] ∧
    (egRun 30 [(⟨1, true, [1, 2, 3], true⟩ : EGTick Nat)] 0).map Frame.event
      ≠ ["update", "update", "complete"] :=
  ⟨by decide, by decide⟩

/-- C2 (corrected): for a job whose log holds progress payloads `p1`, `p2`
and then the completion payload `r` (the producer appends the terminal
update to the log and only then marks the task completed), a reader at
cursor 0 that drains the two progress updates on a tick before completion
and the rest on a tick after completion emits `update p1`, `update p2`,
`complete r` and closes; a reader whose first tick happens after completion
instead emits all three frames tagged `complete`.  The tag depends on the
completion state at drain time, not on the event's own kind. -/
theorem c2_scenarioA {J : Type} (p1 p2 r : J) (e1 e2 : Nat)
    (rest : List (EGTick J))
    (h1 : secondsComponent e1 ≤ 30) (h2 : secondsComponent e2 ≤ 30) :
    egRun 30 ((⟨e1, true, [p1, p2], false⟩ : EGTick J)
        :: (⟨e2, true, [p1, p2, r], true⟩ : EGTick J) :: rest) 0
      = [⟨"update", FrameData.payload p1⟩, ⟨"update", FrameData.payload p2⟩,
         ⟨"complete", FrameData.payload r⟩] ∧
    ∀ (e : Nat) (rest2 : List (EGTick J)), secondsComponent e ≤ 30 →
      egRun 30 ((⟨e, true, [p1, p2, r], true⟩ : EGTick J) :: rest2) 0
        = [⟨"complete", FrameData.payload p1⟩,
           ⟨"complete", FrameData.payload p2⟩,
           ⟨"complete", FrameData.payload r⟩] := by
  constructor
  · rw [egRun_cons, if_neg (Nat.not_lt.mpr h1),
      if_neg (fun h => Bool.noConfusion h),
      if_neg (fun h => Bool.noConfusion h)]
    rw [egRun_cons, if_neg (Nat.not_lt.mpr h2),
      if_neg (fun h => Bool.noConfusion h), if_pos rfl]
    rfl
  · intro e rest2 he
    rw [egRun_cons, if_neg (Nat.not_lt.mpr he),
      if_neg (fun h => Bool.noConfusion h), if_pos rfl]
    rfl

/-- Witness for `c2_scenarioA` with payloads 1, 2 and completion payload 9. -/
theorem c2_scenarioA_witness :
    secondsComponent 1 ≤ 30 ∧ secondsComponent 2 ≤ 30 ∧
    egRun 30 [(⟨1, true, [1, 2], false⟩ : EGTick Nat),
        ⟨2, true, [1, 2, 9], true⟩] 0
      = [⟨"update", FrameData.payload 1⟩, ⟨"update", FrameData.payload 2⟩,
         ⟨"complete", FrameData.payload 9⟩] ∧
    (secondsComponent 3 ≤ 30 →
      egRun 30 [(⟨3, true, [1, 2, 9], true⟩ : EGTick Nat)] 0
        = [⟨"complete", FrameData.payload 1⟩, ⟨"complete", FrameData.payload 2⟩,
           ⟨"complete", FrameData.payload 9⟩]) :=
  ⟨by decide, by decide,
    (c2_scenarioA 1 2 9 1 2 [] (by decide) (by decide)).1,
    fun h3 => (c2_scenarioA 1 2 9 1 2 [] (by decide) (by decide)).2 3 [] h3⟩

/-- C6 counterexample: one mirrored event sits unread in a session log and
the session has been closed; the reader's next tick emits only the
`session_closed` frame — the pending event is never delivered, refuting the
claim at a concrete input. -/
theorem c6_claim_counterexample :
    cgRun 3600 [(⟨false, 0, [⟨none, 7⟩]⟩ : CGTick Nat)] 0
      = [⟨"session_closed", FrameData.message "Client session closed"⟩] ∧
    framePayloads (cgRun 3600 [(⟨false, 0, [⟨none, 7⟩]⟩ : CGTick Nat)] 0)
      = [] ∧
    (⟨false, 0, [⟨none, 7⟩]⟩ : CGTick Nat).log ≠ [] :=
  ⟨by decide, by decide, by decide⟩

/-- C6 (corrected): the session reader checks activity before reading the
log, so on the first tick after `close_session` it emits only a
`session_closed` frame and closes — already-mirrored, not-yet-read events
are not delivered by that reader (its output is the same for every log
content and cursor); mirrored events are delivered only on ticks taken while
the session is still active. -/
theorem c6_close_drops_pending {J : Type} (timeout k kA : Nat)
    (t : CGTick J) (rest : List (CGTick J)) (ht : t.active = false)
    (tA : CGTick J) (restA : List (CGTick J)) (hA : tA.active = true)
    (hnf : secondsComponent tA.elapsed ≤ timeout) :
    cgRun timeout (t :: rest) k
      = [⟨"session_closed", FrameData.message "Client session closed"⟩] ∧
    cgRun timeout (tA :: restA) kA
      = (tA.log.drop kA).map
          (fun u => (⟨u.eventName, FrameData.payload u⟩ : Frame (CUpdate J)))
        ++ cgRun timeout restA (kA + (tA.log.drop kA).length) := by
  constructor
  · rw [cgRun_cons, if_pos ht]
  · rw [cgRun_cons, if_neg (by simp [hA]), if_neg (Nat.not_lt.mpr hnf)]

/-- Witness for `c6_close_drops_pending`: a closed-session tick with one
pending event, and an active tick that drains its event. -/
theorem c6_close_drops_pending_witness :
    (⟨false, 0, [⟨none, 7⟩]⟩ : CGTick Nat).active = false ∧
    (⟨true, 1, [⟨none, 7⟩]⟩ : CGTick Nat).active = true ∧
    secondsComponent (⟨true, 1, [⟨none, 7⟩]⟩ : CGTick Nat).elapsed ≤ 3600 ∧
    cgRun 3600 [(⟨false, 0, [⟨none, 7⟩]⟩ : CGTick Nat)] 0
      = [⟨"session_closed", FrameData.message "Client session closed"⟩] ∧
    cgRun 3600 [(⟨true, 1, [⟨none, 7⟩]⟩ : CGTick Nat)] 0
      = [⟨"update", FrameData.payload ⟨none, 7⟩⟩]
        ++ cgRun 3600 ([] : List (CGTick Nat)) (0 + 1) :=
  ⟨rfl, rfl, by decide,
    (c6_close_drops_pending 3600 0 0 ⟨false, 0, [⟨none, 7⟩]⟩ []
      rfl ⟨true, 1, [⟨none, 7⟩]⟩ [] rfl (by decide)).1,
    (c6_close_drops_pending 3600 0 0 ⟨false, 0, [⟨none, 7⟩]⟩ []
      rfl ⟨true, 1, [⟨none, 7⟩]⟩ [] rfl (by decide)).2⟩

/-! ### Machinery for the session-timeout claim -/

/-- The reader polls twice per second, so consecutive ticks of a trace are
at most one whole elapsed second apart; `steps1 p trace` checks this for a
trace whose first tick follows an instant at `p` elapsed seconds. -/
def steps1 {J : Type} : Nat → List (CGTick J) → Bool
  | _, [] => true
  | p, t :: ts => decide (t.elapsed ≤ p + 1) && steps1 t.elapsed ts

/-- In a densely-ticked trace that reaches past the timeout, there is a
first tick on which the `timedelta.seconds` check fires: its elapsed time is
exactly `timeout + 1`, which (being below one day) survives the within-day
truncation. -/
theorem find_fire {J : Type} (timeout : Nat) (h86 : timeout + 1 < 86400) :
    ∀ (trace : List (CGTick J)) (p : Nat), p ≤ timeout →
      steps1 p trace = true →
      (∃ t ∈ trace, timeout < t.elapsed) →
      ∃ pre tj rest, trace = pre ++ tj :: rest ∧
        (∀ t ∈ pre, secondsComponent t.elapsed ≤ timeout) ∧
        timeout < secondsComponent tj.elapsed := by
  intro trace
  induction trace with
  | nil => intro p _ _ hhit; simp at hhit
  | cons t ts ih =>
    intro p hp hsteps hhit
    simp only [steps1, Bool.and_eq_true, decide_eq_true_eq] at hsteps
    obtain ⟨h1, h2⟩ := hsteps
    by_cases hfire : timeout < t.elapsed
    · refine ⟨[], t, ts, by simp, by simp, ?_⟩
      have helt : t.elapsed = timeout + 1 := by omega
      have hs : secondsComponent t.elapsed = timeout + 1 := by
        rw [helt, secondsComponent]
        exact Nat.mod_eq_of_lt h86
      omega
    · push_neg at hfire
      have hhit' : ∃ t' ∈ ts, timeout < t'.elapsed := by
        rcases hhit with ⟨t', ht', hgt⟩
        rcases List.mem_cons.mp ht' with h | h
        · subst h; omega
        · exact ⟨t', h, hgt⟩
      obtain ⟨pre, tj, rest, heq, hpre, hj⟩ := ih t.elapsed hfire h2 hhit'
      refine ⟨t :: pre, tj, rest, by simp [heq], ?_, hj⟩
      intro t' ht'
      rcases List.mem_cons.mp ht' with h | h
      · subst h
        exact Nat.le_trans (Nat.mod_le _ _) hfire
      · exact hpre t' h

/-- Running the session reader over active, non-fired ticks followed by a
firing tick yields the pre-split frames, then exactly the `session_timeout`
frame, ignoring the rest of the trace. -/
theorem cgRun_fire_split {J : Type} (timeout : Nat) :
    ∀ (pre : List (CGTick J)) (tj : CGTick J) (rest : List (CGTick J))
      (k : Nat),
      (∀ t ∈ pre, t.active = true ∧ secondsComponent t.elapsed ≤ timeout) →
      tj.active = true → timeout < secondsComponent tj.elapsed →
      cgRun timeout (pre ++ tj :: rest) k
        = cgRun timeout pre k
          ++ [⟨"session_timeout", FrameData.message "Session timed out"⟩] := by
  intro pre
  induction pre with
  | nil =>
    intro tj rest k _ ha hf
    rw [List.nil_append, cgRun_cons, if_neg (by simp [ha]), if_pos hf]
    rfl
  | cons t pre ih =>
    intro tj rest k hpre ha hf
    obtain ⟨hta, htf⟩ := hpre t (by simp)
    rw [List.cons_append, cgRun_cons, if_neg (by simp [hta]),
      if_neg (Nat.not_lt.mpr htf)]
    rw [cgRun_cons, if_neg (by simp [hta]), if_neg (Nat.not_lt.mpr htf)]
    rw [ih tj rest _ (fun t' ht' => hpre t' (by simp [ht'])) ha hf,
      List.append_assoc]

/-- Before the firing tick, no emitted frame carries the `session_timeout`
event name, provided no log entry smuggles that name in its `event_type`. -/
theorem cgRun_no_timeout_frames {J : Type} (timeout : Nat) :
    ∀ (pre : List (CGTick J)) (k : Nat),
      (∀ t ∈ pre, t.active = true ∧ secondsComponent t.elapsed ≤ timeout) →
      (∀ t ∈ pre, ∀ u ∈ t.log, u.eventName ≠ "session_timeout") →
      ∀ f ∈ cgRun timeout pre k, f.event ≠ "session_timeout" := by
  intro pre
  induction pre with
  | nil => intro k _ _ f hf; simp [cgRun] at hf
  | cons t pre ih =>
    intro k hpre hlog f hf
    obtain ⟨hta, htf⟩ := hpre t (by simp)
    rw [cgRun_cons, if_neg (by simp [hta]), if_neg (Nat.not_lt.mpr htf)] at hf
    rcases List.mem_append.mp hf with h | h
    · obtain ⟨u, hu, rfl⟩ := List.mem_map.mp h
      exact hlog t (by simp) u (List.mem_of_mem_drop hu)
    · exact ih _ (fun t' ht' => hpre t' (by simp [ht']))
        (fun t' ht' => hlog t' (by simp [ht'])) f h

/-- C5 (confirmed): a session-stream reader on a session that stays active,
polling at least twice per elapsed second from its own start, whose elapsed
time comes to exceed the session timeout (below one day), emits exactly one
`session_timeout` frame, that frame is the last one it emits, and the run is
unchanged by any continuation of the trace — it closes and emits nothing
after the timeout frame.  (The log entries are assumed not to carry the
literal `session_timeout` event type themselves, which fan-in mirrored job
events never do.) -/
theorem c5_session_timeout {J : Type} (timeout k : Nat)
    (trace : List (CGTick J))
    (h86 : timeout + 1 < 86400)
    (hact : ∀ t ∈ trace, t.active = true)
    (hsteps : steps1 0 trace = true)
    (hhit : ∃ t ∈ trace, timeout < t.elapsed)
    (hlog : ∀ t ∈ trace, ∀ u ∈ t.log, u.eventName ≠ "session_timeout") :
    ((cgRun timeout trace k).filter
        (fun f => f.event == "session_timeout")).length = 1 ∧
    (cgRun timeout trace k).getLast?
      = some ⟨"session_timeout", FrameData.message "Session timed out"⟩ ∧
    ∀ more, cgRun timeout (trace ++ more) k = cgRun timeout trace k := by
  obtain ⟨pre, tj, rest, heq, hpresec, hj⟩ :=
    find_fire timeout h86 trace 0 (Nat.zero_le _) hsteps hhit
  have hpre2 : ∀ t ∈ pre,
      t.active = true ∧ secondsComponent t.elapsed ≤ timeout :=
    fun t ht =>
      ⟨hact t (by rw [heq]; exact List.mem_append_left _ ht), hpresec t ht⟩
  have hja : tj.active = true :=
    hact tj (by rw [heq]; exact List.mem_append_right _ (by simp))
  have hsplit := cgRun_fire_split timeout pre tj rest k hpre2 hja hj
  have hnoto := cgRun_no_timeout_frames timeout pre k hpre2
    (fun t ht => hlog t (by rw [heq]; exact List.mem_append_left _ ht))
  refine ⟨?_, ?_, ?_⟩
  · rw [heq, hsplit, List.filter_append]
    have hfilter : (cgRun timeout pre k).filter
        (fun f => f.event == "session_timeout") = [] :=
      List.filter_eq_nil_iff.mpr (fun f hf => by simpa using hnoto f hf)
    rw [hfilter]
    simp
  · rw [heq, hsplit]
    exact List.getLast?_concat _
  · intro more
    rw [heq, List.append_assoc, List.cons_append]
    rw [cgRun_fire_split timeout pre tj (rest ++ more) k hpre2 hja hj, hsplit]

/-- Witness for `c5_session_timeout`: timeout 1, three active ticks at 0, 1
and 2 elapsed seconds, empty logs, and a concrete ignored continuation. -/
theorem c5_session_timeout_witness :
    (1 : Nat) + 1 < 86400 ∧
    (∀ t ∈ [(⟨true, 0, []⟩ : CGTick Nat), ⟨true, 1, []⟩, ⟨true, 2, []⟩],
      t.active = true) ∧
    steps1 0 [(⟨true, 0, []⟩ : CGTick Nat), ⟨true, 1, []⟩, ⟨true, 2, []⟩]
      = true ∧
    (∃ t ∈ [(⟨true, 0, []⟩ : CGTick Nat), ⟨true, 1, []⟩, ⟨true, 2, []⟩],
      1 < t.elapsed) ∧
    (∀ t ∈ [(⟨true, 0, []⟩ : CGTick Nat), ⟨true, 1, []⟩, ⟨true, 2, []⟩],
      ∀ u ∈ t.log, u.eventName ≠ "session_timeout") ∧
    ((cgRun 1 [(⟨true, 0, []⟩ : CGTick Nat), ⟨true, 1, []⟩, ⟨true, 2, []⟩]
        0).filter (fun f => f.event == "session_timeout")).length = 1 ∧
    (cgRun 1 [(⟨true, 0, []⟩ : CGTick Nat), ⟨true, 1, []⟩, ⟨true, 2, []⟩]
        0).getLast?
      = some ⟨"session_timeout", FrameData.message "Session timed out"⟩ ∧
    cgRun 1
        ([(⟨true, 0, []⟩ : CGTick Nat), ⟨true, 1, []⟩, ⟨true, 2, []⟩]
          ++ [⟨false, 3, []⟩]) 0
      = cgRun 1 [(⟨true, 0, []⟩ : CGTick Nat), ⟨true, 1, []⟩, ⟨true, 2, []⟩]
          0 := by
  have h := c5_session_timeout 1 0
    [(⟨true, 0, []⟩ : CGTick Nat), ⟨true, 1, []⟩, ⟨true, 2, []⟩]
    (by decide) (by decide) (by decide) (by decide) (by decide)
  exact ⟨by decide, by decide, by decide, by decide, by decide,
    h.1, h.2.1, h.2.2 [⟨false, 3, []⟩]⟩

/-- C1 counterexample: a reader at cursor 0 whose second tick fires the
timeout check emits only the `error`-tagged timeout frame; its frames carry
no log payloads at all, while the producer's final log is nonempty — so the
concatenation of emitted payloads differs from the final log minus its first
0 entries, refuting the round-trip claim at a concrete input. -/
theorem c1_claim_counterexample :
    egRun 30 [(⟨0, true, [], false⟩ : EGTick Nat), ⟨31, true, [5], false⟩] 0
      = [⟨"error", FrameData.message "Stream timeout"⟩] ∧
    framePayloads
        (egRun 30
          [(⟨0, true, [], false⟩ : EGTick Nat), ⟨31, true, [5], false⟩] 0)
      = [] ∧
    ([5] : List Nat).drop 0 ≠ [] :=
  ⟨by decide, by decide, by decide⟩

/-- C1 (corrected): the round-trip holds for readers that terminate by
observing the producer's terminal condition with the final log fully
visible, rather than by timeout or error.  Job stream: if every tick before
the last sees the task, sees no timeout, sees it uncompleted and sees a
prefix of the final log `L`, and the last tick sees the completed task with
log `L`, then the payloads of all emitted frames are exactly `L.drop k`,
each entry once, in order (the cursor advances by one per frame).  Client
stream: same with "active" for "uncompleted", provided some tick saw the
full final log `L2` before the closing (inactive) tick; a reader that times
out, or whose terminal tick hides a log suffix, can emit fewer payloads. -/
theorem c1_reader_round_trip {J J2 : Type}
    (timeout timeout2 k k2 : Nat) (L : List J)
    (ts : List (EGTick J)) (tm : EGTick J) (rest : List (EGTick J))
    (hts : ∀ t ∈ ts, t.found = true ∧ secondsComponent t.elapsed ≤ timeout ∧
      t.completed = false ∧ ∃ n, t.log = L.take n)
    (hmf : tm.found = true) (hmt : secondsComponent tm.elapsed ≤ timeout)
    (hmc : tm.completed = true) (hml : tm.log = L)
    (L2 : List (CUpdate J2)) (cs : List (CGTick J2)) (tc : CGTick J2)
    (rest2 : List (CGTick J2))
    (hcs : ∀ t ∈ cs, t.active = true ∧
      secondsComponent t.elapsed ≤ timeout2 ∧ ∃ n, t.log = L2.take n)
    (hfull : ∃ t ∈ cs, t.log = L2)
    (htc : tc.active = false) :
    framePayloads (egRun timeout (ts ++ tm :: rest) k) = L.drop k ∧
    framePayloads (cgRun timeout2 (cs ++ tc :: rest2) k2) = L2.drop k2 := by
  constructor
  · obtain ⟨c2, hca, _, _, hrun⟩ := egRun_body timeout L ts k hts
    rw [hrun (tm :: rest)]
    rw [egRun_cons, if_neg (Nat.not_lt.mpr hmt), if_neg (by simp [hmf]),
      if_pos hmc]
    rw [framePayloads_append, framePayloads_tagged, framePayloads_tagged,
      hml]
    exact cursor_slice_close L k c2 hca
  · obtain ⟨c2, hca, _, hcc, hrun⟩ := cgRun_body timeout2 L2 cs k2 hcs
    rw [hrun (tc :: rest2)]
    rw [cgRun_cons, if_pos htc]
    rw [framePayloads_append, framePayloads_tagged]
    have hc2L : L2.length ≤ c2 := by
      obtain ⟨t, htmem, htlog⟩ := hfull
      have h := hcc t htmem
      rwa [htlog] at h
    rw [List.take_of_length_le hc2L]
    simp [framePayloads]

/-- Witness for `c1_reader_round_trip`: a job reader that sees the
completed task with final log `[8, 9]` on its first tick, and a session
reader that drains the one-entry session log on an active tick before the
session is closed. -/
theorem c1_reader_round_trip_witness :
    (∀ t ∈ ([] : List (EGTick Nat)), t.found = true ∧
      secondsComponent t.elapsed ≤ 30 ∧ t.completed = false ∧
      ∃ n, t.log = ([8, 9] : List Nat).take n) ∧
    (⟨2, true, [8, 9], true⟩ : EGTick Nat).found = true ∧
    secondsComponent (⟨2, true, [8, 9], true⟩ : EGTick Nat).elapsed ≤ 30 ∧
    (⟨2, true, [8, 9], true⟩ : EGTick Nat).completed = true ∧
    (⟨2, true, [8, 9], true⟩ : EGTick Nat).log = [8, 9] ∧
    (∀ t ∈ [(⟨true, 0, [⟨none, 4⟩]⟩ : CGTick Nat)], t.active = true ∧
      secondsComponent t.elapsed ≤ 3600 ∧
      ∃ n, t.log = ([⟨none, 4⟩] : List (CUpdate Nat)).take n) ∧
    (∃ t ∈ [(⟨true, 0, [⟨none, 4⟩]⟩ : CGTick Nat)],
      t.log = ([⟨none, 4⟩] : List (CUpdate Nat))) ∧
    (⟨false, 1, [⟨none, 4⟩]⟩ : CGTick Nat).active = false ∧
    framePayloads
        (egRun 30 ([] ++ [(⟨2, true, [8, 9], true⟩ : EGTick Nat)]) 0)
      = ([8, 9] : List Nat).drop 0 ∧
    framePayloads
        (cgRun 3600
          ([(⟨true, 0, [⟨none, 4⟩]⟩ : CGTick Nat)]
            ++ [(⟨false, 1, [⟨none, 4⟩]⟩ : CGTick Nat)]) 0)
      = ([⟨none, 4⟩] : List (CUpdate Nat)).drop 0 := by
  have hts : ∀ t ∈ ([] : List (EGTick Nat)), t.found = true ∧
      secondsComponent t.elapsed ≤ 30 ∧ t.completed = false ∧
      ∃ n, t.log = ([8, 9] : List Nat).take n := by simp
  have hcs : ∀ t ∈ [(⟨true, 0, [⟨none, 4⟩]⟩ : CGTick Nat)], t.active = true ∧
      secondsComponent t.elapsed ≤ 3600 ∧
      ∃ n, t.log = ([⟨none, 4⟩] : List (CUpdate Nat)).take n := by
    intro t ht
    rcases List.mem_cons.mp ht with rfl | ht
    · exact ⟨rfl, by decide, 1, rfl⟩
    · exact absurd ht (List.not_mem_nil t)
  have hfull : ∃ t ∈ [(⟨true, 0, [⟨none, 4⟩]⟩ : CGTick Nat)],
      t.log = ([⟨none, 4⟩] : List (CUpdate Nat)) :=
    ⟨⟨true, 0, [⟨none, 4⟩]⟩, by simp, rfl⟩
  have h := c1_reader_round_trip 30 3600 0 0 [8, 9] []
    ⟨2, true, [8, 9], true⟩ [] hts rfl (by decide) rfl rfl
    [⟨none, 4⟩] [⟨true, 0, [⟨none, 4⟩]⟩] ⟨false, 1, [⟨none, 4⟩]⟩ []
    hcs hfull rfl
  exact ⟨hts, rfl, by decide, rfl, rfl, hcs, hfull, rfl, h.1, h.2⟩

/-! ### Capture monitor and the final drain (C7) -/

/-- The `command_output` string of a drained chunk: the concatenation of the
entry texts (`service.py`, 826-828 and 868-870). -/
def commandOutput (chunk : List OutEntry) : String :=
  String.join (chunk.map OutEntry.text)

/-- One update appended to the stream task's log by
`execute_workflow_for_project_stream` once execution is under way: a running
`command`-typed update carrying a drained chunk (its `command_output` field
is `commandOutput` of the chunk), or the terminal `completion` update
carrying the execution result and the complete captured output
(`service.py`, 831-837, 872-878, 925-934). -/
inductive ExecUpdate (R : Type) : Type where
  | command : List OutEntry → ExecUpdate R
  | completion : R → List OutEntry → ExecUpdate R

/-- The monitor task's successive drains (`monitor_output`, `service.py`,
817-845): the buffer only ever grows, so the snapshot the monitor sees at a
tick is the first `n` entries of the final buffer `buf`; the chunk drained
at that tick is `get_new_output(output_index)` on the snapshot, i.e.
`(buf.take n).drop idx`, after which `output_index` advances by the chunk's
length.  Returns the list of drained chunks and the final `output_index`. -/
def drainChunks (buf : List OutEntry) :
    List Nat → Nat → List (List OutEntry) × Nat
  | [], idx => ([], idx)
  | n :: ns, idx =>
    let chunk := (buf.take n).drop idx
    let r := drainChunks buf ns (idx + chunk.length)
    (chunk :: r.1, r.2)

/-- The sequence of updates appended to the stream task's log between the
start of execution and `complete_stream_task` (`service.py`, 848-937): the
monitor's nonempty drained chunks as `command` updates, then — after the
monitor is cancelled — the final drain `get_new_output(output_index)` of
everything past the last drained index (appended only if nonempty), and
only then the terminal `completion` update. -/
def streamEpilogue {R : Type} (buf : List OutEntry) (ticks : List Nat)
    (result : R) : List (ExecUpdate R) :=
  (((drainChunks buf ticks 0).1
        ++ [buf.drop (drainChunks buf ticks 0).2]).filter
      (fun c => !c.isEmpty)).map ExecUpdate.command
    ++ [ExecUpdate.completion result buf]

theorem drainChunks_join (buf : List OutEntry) :
    ∀ (ticks : List Nat) (idx : Nat),
      (drainChunks buf ticks idx).1.flatten
          ++ buf.drop (drainChunks buf ticks idx).2
        = buf.drop idx := by
  intro ticks
  induction ticks with
  | nil => intro idx; simp [drainChunks]
  | cons n ns ih =>
    intro idx
    show (((buf.take n).drop idx)
          :: (drainChunks buf ns
              (idx + ((buf.take n).drop idx).length)).1).flatten
        ++ buf.drop (drainChunks buf ns
            (idx + ((buf.take n).drop idx).length)).2
      = buf.drop idx
    rw [List.flatten_cons, List.append_assoc,
      ih (idx + ((buf.take n).drop idx).length)]
    generalize hL : ((buf.take n).drop idx).length = m
    have h1 : (buf.take n).drop idx = (buf.take (idx + m)).drop idx := by
      rw [← hL]; exact chunk_as_cursor_slice buf idx n
    rw [h1]
    exact cursor_slice_close buf idx (idx + m) (by omega)

theorem flatten_filter_nonempty (l : List (List OutEntry)) :
    (l.filter (fun c => !c.isEmpty)).flatten = l.flatten := by
  induction l with
  | nil => rfl
  | cons c l ih =>
    by_cases hc : c.isEmpty
    · have hc' : c = [] := by simpa using hc
      rw [hc']
      simp [ih]
    · have hb : (!c.isEmpty) = true := by simp [hc]
      simp [List.filter_cons, hb, ih]

/-- C7 (confirmed): for every final buffer content and every sequence of
monitor-tick snapshots, the updates appended to the stream task's log
consist of command-output updates followed by exactly one terminal
completion update; the drained chunks carried by the command updates
concatenate to the whole buffer, so every entry written to the capture
buffer before execution returned appears in some command update appended
before the terminal update — the final drain after cancelling the monitor
loses nothing. -/
theorem c7_final_drain {R : Type} (buf : List OutEntry) (ticks : List Nat)
    (result : R) :
    ∃ cs : List (List OutEntry),
      streamEpilogue buf ticks result
        = cs.map ExecUpdate.command ++ [ExecUpdate.completion result buf] ∧
      cs.flatten = buf ∧
      ∀ e ∈ buf, ∃ c ∈ cs, e ∈ c := by
  have hj : (((drainChunks buf ticks 0).1
        ++ [buf.drop (drainChunks buf ticks 0).2]).filter
      (fun c => !c.isEmpty)).flatten = buf := by
    rw [flatten_filter_nonempty, List.flatten_append]
    simpa using drainChunks_join buf ticks 0
  refine ⟨_, rfl, hj, ?_⟩
  intro e he
  rw [← hj] at he
  exact List.mem_flatten.mp he

end EvoServer
